import Mathlib

/-!
Verification of the model-selection core of the SlicerTestTutorial repository.

The embedding covers:
* `findModelId` from `src/Scripts/model_selection_utils.py` — model-id
  resolution with version fallback over an ordered collection of model
  descriptors;
* `Slicer4MinuteTest.findModelId` from the tutorial script
  `src/Tutorials/.../AIBasedSegmentationIn3DSlicer.py` — a second copy of the
  resolver embedded here as `tutorialFindModelId`;
* `getModelSearchKeywords` from `src/Scripts/model_selection_utils.py` —
  keyword extraction from a (translated) model title.

Model descriptors are Python dicts with keys `id`, `title`, `version` and an
optional boolean `deprecated` (read via `model.get("deprecated", False)`);
they are embedded as the structure `Model` below.  The Python regular
expression `^(.+)-v\d+\.\d+\.\d+$` (used with `re.match`) is embedded over
lists of characters with Python `re` semantics:
* `.` matches any character except a newline, so the captured base is
  newline-free;
* `$` matches at the end of the string or just before a newline that is the
  last character, so the version tail may be followed by one final newline;
* `(.+)` is greedy: the engine tries the longest possible base first, hence
  the matched suffix is the last `-v<digits>.<digits>.<digits>` suffix; this
  backtracking order is mirrored by searching split positions from the
  largest index downwards (`parseBase`);
* `\d` is embedded as an ASCII decimal digit (`Char.isDigit`); model ids in
  this ecosystem are ASCII slugs, so Python's Unicode digit classes are not
  modelled.
Raising `ValueError(msg)` is embedded as `Except.error msg` with `msg` the
very string the source builds.
-/

/-- A model descriptor, as consumed by the resolver: the Python dict keys
`id`, `title`, `version` and the optional `deprecated` flag
(`model.get("deprecated", False)` reads `false` when absent, so the embedding
stores the defaulted boolean directly). -/
structure Model where
  id : String
  title : String
  version : String
  deprecated : Bool
  deriving Repr, DecidableEq

/-- Checks that a character list matches the regex tail `\d+\.\d+\.\d+$`:
three nonempty runs of decimal digits separated by literal dots, where the
final `$` accepts either the end of the string or a single newline that is
the last character (Python `$` semantics). -/
def isVerTail (cs : List Char) : Bool :=
  match cs.span (fun c => c.isDigit) with
  | ([], _) => false
  | (_ :: _, r1) =>
    match r1 with
    | '.' :: r2 =>
      match r2.span (fun c => c.isDigit) with
      | ([], _) => false
      | (_ :: _, r3) =>
        match r3 with
        | '.' :: r4 =>
          match r4.span (fun c => c.isDigit) with
          | ([], _) => false
          | (_ :: _, rest) => rest.isEmpty || rest == ['\n']
        | _ => false
    | _ => false

/-- `splitOK cs i` holds when splitting `cs` after its first `i` characters
yields a match of `^(.+)-v\d+\.\d+\.\d+$`: a nonempty base (`0 < i`) of
non-newline characters (`.` does not match a newline) followed by the
literal `-v` and a version tail. -/
def splitOK (cs : List Char) (i : Nat) : Bool :=
  decide (0 < i) && (cs.take i).all (fun c => c != '\n') &&
    match cs.drop i with
    | '-' :: 'v' :: t => isVerTail t
    | _ => false

/-- The embedding of `re.match(r"^(.+)-v\d+\.\d+\.\d+$", s)`, returning
`group(1)` on success.  The greedy `(.+)` makes the engine try the longest
base first, so split positions are searched from the largest index down; the
first (= largest) valid split wins. -/
def parseBase (s : String) : Option String :=
  (((List.range (s.data.length + 1)).reverse.find? (splitOK s.data)).map
    (fun i => String.mk (s.data.take i)))

/-- `listStarts cs ps` checks that `ps` is an initial segment of `cs`. -/
def listStarts : List Char → List Char → Bool
  | _, [] => true
  | [], _ :: _ => false
  | c :: cs, p :: ps => c == p && listStarts cs ps

/-- Embedding of Python's `s.startswith(pre)` (structurally recursive so
that concrete instances evaluate definitionally). -/
def strStartsWith (s pre : String) : Bool :=
  listStarts s.data pre.data

/-- `availableIds` mirrors
`[m['id'] for m in logic.models if not m.get("deprecated", False)]`. -/
def availableIds (models : List Model) : List String :=
  (models.filter (fun m => !m.deprecated)).map (fun m => m.id)

/-- The `ValueError` message built by `findModelId`: header naming the
requested id, one `  - <id>` line per available id (first 10 only), and an
overflow line when more than 10 non-deprecated ids exist. -/
def errorMessage (preferredModelId : String) (availIds : List String) : String :=
  let base := "Model \x27" ++ preferredModelId ++
    "\x27 not found and no fallback available.\nAvailable models:\n"
  let withIds := (availIds.take 10).foldl
    (fun acc modelId => acc ++ "  - " ++ modelId ++ "\n") base
  if availIds.length > 10 then
    withIds ++ "  ... and " ++ toString (availIds.length - 10) ++ " more\n"
  else
    withIds

/-- Embedding of `findModelId` from `src/Scripts/model_selection_utils.py`
(the `logic is None` import path is caller-side dependency acquisition and is
outside the resolution contract): exact-match scan, then greedy parse of the
version suffix, then fallback to the first non-deprecated descriptor whose id
starts with `baseName + "-v"`, else `ValueError`. -/
def findModelId (preferredModelId : String) (models : List Model) :
    Except String String :=
  match models.find? (fun m => m.id == preferredModelId) with
  | some _ => .ok preferredModelId
  | none =>
    match parseBase preferredModelId with
    | some baseName =>
      match models.filter
          (fun m => strStartsWith m.id (baseName ++ "-v") && !m.deprecated) with
      | latestModel :: _ => .ok latestModel.id
      | [] => .error (errorMessage preferredModelId (availableIds models))
    | none => .error (errorMessage preferredModelId (availableIds models))

/-- The Python `repr` of a list of strings, as interpolated by the tutorial's
error f-string: `['a', 'b']`. -/
def pyListRepr (xs : List String) : String :=
  "[" ++ String.intercalate ", "
    (xs.map (fun s => "\x27" ++ s ++ "\x27")) ++ "]"

/-- The `ValueError` message built by the tutorial's `findModelId`: it lists
the first five descriptors of the collection, deprecated ones included. -/
def tutorialErrorMessage (preferredModelId : String) (models : List Model) :
    String :=
  "Model \x27" ++ preferredModelId ++
    "\x27 not found and no fallback available. Available models: " ++
    pyListRepr ((models.take 5).map (fun m => m.id)) ++ "..."

/-- Embedding of `Slicer4MinuteTest.findModelId` from the tutorial script.
Identical to `findModelId` except that its fallback collects every
base-matching descriptor — it never consults the `deprecated` flag — and its
error message lists the first five descriptor ids. -/
def tutorialFindModelId (preferredModelId : String) (models : List Model) :
    Except String String :=
  match models.find? (fun m => m.id == preferredModelId) with
  | some _ => .ok preferredModelId
  | none =>
    match parseBase preferredModelId with
    | some baseName =>
      match models.filter (fun m => strStartsWith m.id (baseName ++ "-v")) with
      | latestModel :: _ => .ok latestModel.id
      | [] => .error (tutorialErrorMessage preferredModelId models)
    | none => .error (tutorialErrorMessage preferredModelId models)

/-- State-threaded embedding of `findModelId`, for the frame property.  The
source touches `logic.models` only by reading (`for model in logic.models`,
`model["id"]`, `model.get(...)`, list-comprehension over it); every exit path
therefore hands the collection back exactly as received.  The second
component is the collection as it stands when the call returns or raises. -/
def findModelIdSt (preferredModelId : String) (models : List Model) :
    Except String String × List Model :=
  match models.find? (fun m => m.id == preferredModelId) with
  | some _ => (.ok preferredModelId, models)
  | none =>
    match parseBase preferredModelId with
    | some baseName =>
      match models.filter
          (fun m => strStartsWith m.id (baseName ++ "-v") && !m.deprecated) with
      | latestModel :: _ => (.ok latestModel.id, models)
      | [] =>
        (.error (errorMessage preferredModelId (availableIds models)), models)
    | none =>
      (.error (errorMessage preferredModelId (availableIds models)), models)

/-- The fixed stop-list of `getModelSearchKeywords` in
`src/Scripts/model_selection_utils.py`. -/
def skipWords : List String :=
  ["segmentation", "quick", "-", "ts1", "ts2", "v1", "v2", "the"]

/-- Tokenizer loop behind `translatedTitle.split()`: Python's no-argument
split cuts on runs of whitespace and never yields empty tokens.  `acc` holds
the characters of the token currently being read, in reverse. -/
def wsSplitAux : List Char → List Char → List String
  | [], [] => []
  | [], a :: as => [String.mk (a :: as).reverse]
  | c :: cs, acc =>
    if c.isWhitespace then
      match acc with
      | [] => wsSplitAux cs []
      | a :: as => String.mk (a :: as).reverse :: wsSplitAux cs []
    else
      wsSplitAux cs (c :: acc)

/-- `translatedTitle.split()`: whitespace tokenization with no empty
tokens. -/
def titleWords (translatedTitle : String) : List String :=
  wsSplitAux translatedTitle.data []

/-- Embedding of Python's `word.lower()` (character-wise lowering, written
structurally so concrete instances evaluate definitionally). -/
def strLower (word : String) : String :=
  String.mk (word.data.map Char.toLower)

/-- The loop condition `word.lower() not in skipWords and len(word) > 2`. -/
def keywordOK (word : String) : Bool :=
  !(skipWords.contains (strLower word)) && decide (word.length > 2)

/-- The collection loop of `getModelSearchKeywords`: append each passing
word and break as soon as two keywords are collected. -/
def keywordLoop : List String → List String → List String
  | [], keywords => keywords
  | word :: rest, keywords =>
    if keywordOK word then
      let keywords2 := keywords ++ [word]
      if keywords2.length ≥ 2 then keywords2 else keywordLoop rest keywords2
    else
      keywordLoop rest keywords

/-- Embedding of `getModelSearchKeywords` from
`src/Scripts/model_selection_utils.py`.  `translate` stands for
`lambda text: translate("Models", text)` (identity when the host's i18n is
unavailable); the `logic is None` import path is caller-side dependency
acquisition, outside the extraction contract. -/
def getModelSearchKeywords (modelId : String) (models : List Model)
    (translate : String → String) : String :=
  match models.find? (fun m => m.id == modelId) with
  | some model =>
    let translatedTitle := translate model.title
    let words := titleWords translatedTitle
    let keywords := keywordLoop words []
    if !keywords.isEmpty then
      String.intercalate " " keywords
    else
      match words with
      | word :: _ => word
      | [] => ""
  | none => ""

/-! ### Helper lemmas -/

/-- A split at or past the end of the string never matches: the regex needs
at least `-v` after the base. -/
theorem splitOK_eq_false_of_le {cs : List Char} {i : Nat}
    (h : cs.length ≤ i) : splitOK cs i = false := by
  unfold splitOK
  rw [List.drop_eq_nil_of_le h]
  simp

theorem lt_length_of_splitOK {cs : List Char} {i : Nat}
    (h : splitOK cs i = true) : i < cs.length := by
  by_contra hc
  rw [splitOK_eq_false_of_le (Nat.le_of_not_lt hc)] at h
  exact Bool.false_ne_true h

/-- `find?` over a reversed range returns a maximal satisfying index: this is
the backtracking order of a greedy leading group. -/
theorem find?_reverse_range_le {p : Nat → Bool} {n j : Nat}
    (hj : (List.range n).reverse.find? p = some j) :
    ∀ k, k < n → p k = true → k ≤ j := by
  induction n with
  | zero => simp at hj
  | succ n ih =>
    rw [List.range_succ, List.reverse_append] at hj
    simp only [List.reverse_singleton, List.singleton_append,
      List.find?_cons] at hj
    intro k hk hpk
    rcases Nat.lt_succ_iff_lt_or_eq.mp hk with hk' | rfl
    · cases hpn : p n with
      | true => simp [hpn] at hj; omega
      | false => rw [hpn] at hj; exact ih hj k hk' hpk
    · cases hpn : p k with
      | true => simp [hpn] at hj; omega
      | false => rw [hpk] at hpn; exact absurd hpn (by simp)

/-- When some split matches, `parseBase` returns the base of the largest
matching split — the greedy (last-suffix) one. -/
theorem parseBase_eq_some_max {s : String} {i : Nat}
    (h : splitOK s.data i = true) :
    ∃ j, splitOK s.data j = true ∧ (∀ k, splitOK s.data k = true → k ≤ j) ∧
      parseBase s = some (String.mk (s.data.take j)) := by
  have hi : i < s.data.length + 1 :=
    Nat.lt_succ_of_lt (lt_length_of_splitOK h)
  cases hfind : (List.range (s.data.length + 1)).reverse.find?
      (splitOK s.data) with
  | none =>
    exfalso
    have := List.find?_eq_none.mp hfind i
      (by rw [List.mem_reverse]; exact List.mem_range.mpr hi)
    exact this h
  | some j =>
    refine ⟨j, List.find?_some hfind, ?_, ?_⟩
    · intro k hk
      exact find?_reverse_range_le hfind k
        (Nat.lt_succ_of_lt (lt_length_of_splitOK hk)) hk
    · unfold parseBase
      rw [hfind]
      rfl

/-- When no split matches, `parseBase` fails. -/
theorem parseBase_eq_none (s : String)
    (h : ∀ i, splitOK s.data i = false) : parseBase s = none := by
  unfold parseBase
  rw [List.find?_eq_none.mpr (fun i _ => by simp [h i])]
  rfl

/-- The head of a filtered list is the first element satisfying the
predicate. -/
theorem head?_filter_eq_find? (p : Model → Bool) (l : List Model) :
    (l.filter p).head? = l.find? p := by
  induction l with
  | nil => rfl
  | cons a t ih =>
    by_cases hp : p a
    · simp [List.filter_cons, List.find?_cons, hp]
    · simp only [List.filter_cons, List.find?_cons]
      rw [if_neg hp, Bool.not_eq_true] at *
      rw [hp]
      exact ih

/-- The collection loop collects the first two surviving tokens, in order. -/
theorem keywordLoop_eq_filter_take (ws acc : List String)
    (h : acc.length < 2) :
    keywordLoop ws acc = acc ++ (ws.filter keywordOK).take (2 - acc.length) := by
  induction ws generalizing acc with
  | nil => simp [keywordLoop]
  | cons w rest ih =>
    unfold keywordLoop
    by_cases hw : keywordOK w
    · rw [if_pos hw]
      simp only [List.filter_cons, hw, if_pos]
      by_cases hlen : (acc ++ [w]).length ≥ 2
      · rw [if_pos hlen]
        have hacc : acc.length = 1 := by
          simp only [List.length_append, List.length_singleton] at hlen
          omega
        have h2 : 2 - acc.length = 1 := by omega
        simp [h2]
      · rw [if_neg hlen]
        have hlt : (acc ++ [w]).length < 2 := Nat.lt_of_not_le hlen
        rw [ih (acc ++ [w]) hlt]
        have hacc : acc.length = 0 := by
          simp only [List.length_append, List.length_singleton] at hlt
          omega
        have h0 : acc = [] := List.length_eq_zero.mp hacc
        simp [h0]
    · rw [if_neg hw]
      simp only [List.filter_cons, hw]
      simp only [Bool.false_eq_true, if_false]
      exact ih acc h

/-- Shared core of the exact-match step: any descriptor whose id equals the
requested id makes the first scan return the requested id itself. -/
theorem findModelId_ok_of_id_mem {preferredModelId : String}
    {models : List Model} {m : Model} (hmem : m ∈ models)
    (hid : m.id = preferredModelId) :
    findModelId preferredModelId models = .ok preferredModelId := by
  cases hf : models.find? (fun x => x.id == preferredModelId) with
  | none =>
    exact absurd (by simp [hid] : (m.id == preferredModelId) = true)
      (by simpa using List.find?_eq_none.mp hf m hmem)
  | some y => simp [findModelId, hf]

/-! ### Claim theorems -/

/-- Claim C2: for every collection and every id that occurs verbatim as some
descriptor's id, `findModelId` returns that id itself — exact match wins even
when a newer version of the same base name exists. -/
theorem findModelId_exact_match (preferredModelId : String)
    (models : List Model) (m : Model) (hmem : m ∈ models)
    (hid : m.id = preferredModelId) :
    findModelId preferredModelId models = .ok preferredModelId :=
  findModelId_ok_of_id_mem hmem hid

/-- Witness for claim C2, on the spec's concrete scenario: the newer
`prostate-v1.0.1` is listed first, yet the exact match is returned. -/
theorem findModelId_exact_match_check :
    findModelId "prostate-v1.0.0"
      [⟨"prostate-v1.0.1", "Prostate Segmentation", "1.0.1", false⟩,
       ⟨"prostate-v1.0.0", "Prostate Segmentation", "1.0.0", false⟩] =
      .ok "prostate-v1.0.0" :=
  findModelId_exact_match _ _
    ⟨"prostate-v1.0.0", "Prostate Segmentation", "1.0.0", false⟩
    (by simp) rfl

/-- Claim C10: the exact-match step ignores the `deprecated` flag — a
descriptor whose id equals the requested id resolves to it even when
deprecated; deprecation only excludes descriptors from the fallback list and
the error listing. -/
theorem findModelId_exact_match_ignores_deprecated (preferredModelId : String)
    (models : List Model) (m : Model) (hmem : m ∈ models)
    (hid : m.id = preferredModelId) (_hdep : m.deprecated = true) :
    findModelId preferredModelId models = .ok preferredModelId :=
  findModelId_ok_of_id_mem hmem hid

/-- Witness for claim C10: a deprecated descriptor still wins by exact
match. -/
theorem findModelId_exact_match_ignores_deprecated_check :
    findModelId "liver-v1.0.0"
      [⟨"liver-v2.0.0", "Liver Segmentation", "2.0.0", false⟩,
       ⟨"liver-v1.0.0", "Liver Segmentation", "1.0.0", true⟩] =
      .ok "liver-v1.0.0" :=
  findModelId_exact_match_ignores_deprecated _ _
    ⟨"liver-v1.0.0", "Liver Segmentation", "1.0.0", true⟩
    (by simp) rfl rfl

/-- Claim C1: when the requested id is absent but parses as
`<base>-v<major>.<minor>.<patch>`, and some non-deprecated descriptor's id
starts with `<base>-v`, `findModelId` returns the id of the first such
descriptor in collection order — no numeric version comparison, just
collection order. -/
theorem findModelId_fallback_first_nondeprecated (preferredModelId base :
    String) (models : List Model) (m : Model)
    (habs : ∀ x ∈ models, x.id ≠ preferredModelId)
    (hparse : parseBase preferredModelId = some base)
    (hfirst : models.find?
      (fun x => strStartsWith x.id (base ++ "-v") && !x.deprecated) = some m) :
    findModelId preferredModelId models = .ok m.id := by
  have hf : models.find? (fun x => x.id == preferredModelId) = none :=
    List.find?_eq_none.mpr (fun x hx => by simp [habs x hx])
  have hhead : (models.filter
      (fun x => strStartsWith x.id (base ++ "-v") && !x.deprecated)).head? =
      some m := by
    rw [head?_filter_eq_find?]
    exact hfirst
  cases hfl : models.filter
      (fun x => strStartsWith x.id (base ++ "-v") && !x.deprecated) with
  | nil => rw [hfl] at hhead; simp at hhead
  | cons a t =>
    rw [hfl] at hhead
    simp only [List.head?_cons, Option.some.injEq] at hhead
    subst hhead
    simp [findModelId, hf, hparse, hfl]

/-- Witness for claim C1, on the spec's concrete scenario: requesting the
absent `prostate-v1.0.0` falls back to `prostate-v1.0.1`; the deprecated
`prostate-v2.0.0` listed first is skipped. -/
theorem findModelId_fallback_first_nondeprecated_check :
    findModelId "prostate-v1.0.0"
      [⟨"prostate-v2.0.0", "Prostate Segmentation", "2.0.0", true⟩,
       ⟨"prostate-v1.0.1", "Prostate Segmentation", "1.0.1", false⟩] =
      .ok "prostate-v1.0.1" :=
  findModelId_fallback_first_nondeprecated _ "prostate" _
    ⟨"prostate-v1.0.1", "Prostate Segmentation", "1.0.1", false⟩
    (by simp) rfl rfl

/-- Claim C3: when there is no exact match and either the requested id does
not parse as `<base>-v<major>.<minor>.<patch>` or every base-matching
descriptor is deprecated or absent, `findModelId` raises `ValueError` whose
message is built (by `errorMessage`) from the requested id and the
order-preserved list of non-deprecated ids, capped at 10 with the overflow
count. -/
theorem findModelId_not_found_error (preferredModelId : String)
    (models : List Model)
    (habs : ∀ x ∈ models, x.id ≠ preferredModelId)
    (hfb : ∀ base, parseBase preferredModelId = some base →
      models.filter
        (fun x => strStartsWith x.id (base ++ "-v") && !x.deprecated) = []) :
    findModelId preferredModelId models =
      .error (errorMessage preferredModelId
        ((models.filter (fun x => !x.deprecated)).map (fun x => x.id))) := by
  have hf : models.find? (fun x => x.id == preferredModelId) = none :=
    List.find?_eq_none.mpr (fun x hx => by simp [habs x hx])
  cases hp : parseBase preferredModelId with
  | none => simp [findModelId, hf, hp, availableIds]
  | some base => simp [findModelId, hf, hp, hfb base hp, availableIds]

/-- Claim C9: `findModelId` never mutates the collection — on every path,
returning or raising, the state-threaded resolver hands back the very
sequence of descriptors it received (hence every field of every descriptor
is unchanged), and it computes the same answer as `findModelId`. -/
theorem findModelId_no_mutation (preferredModelId : String)
    (models : List Model) :
    (findModelIdSt preferredModelId models).2 = models ∧
      (findModelIdSt preferredModelId models).1 =
        findModelId preferredModelId models := by
  cases hf : models.find? (fun m => m.id == preferredModelId) with
  | some m => simp [findModelIdSt, findModelId, hf]
  | none =>
    cases hp : parseBase preferredModelId with
    | none => simp [findModelIdSt, findModelId, hf, hp]
    | some base =>
      cases hfl : models.filter
          (fun m => strStartsWith m.id (base ++ "-v") && !m.deprecated) with
      | nil => simp [findModelIdSt, findModelId, hf, hp, hfl]
      | cons a t => simp [findModelIdSt, findModelId, hf, hp, hfl]

/-- A collection with eleven non-deprecated descriptors (and one deprecated),
to exercise the ten-entry cap and the overflow count of the error
message. -/
def overflowModels : List Model :=
  [⟨"m01-v1.0.0", "M01", "1.0.0", false⟩,
   ⟨"m02-v1.0.0", "M02", "1.0.0", false⟩,
   ⟨"m03-v1.0.0", "M03", "1.0.0", false⟩,
   ⟨"m04-v1.0.0", "M04", "1.0.0", false⟩,
   ⟨"m05-v1.0.0", "M05", "1.0.0", false⟩,
   ⟨"old-v1.0.0", "Old", "1.0.0", true⟩,
   ⟨"m06-v1.0.0", "M06", "1.0.0", false⟩,
   ⟨"m07-v1.0.0", "M07", "1.0.0", false⟩,
   ⟨"m08-v1.0.0", "M08", "1.0.0", false⟩,
   ⟨"m09-v1.0.0", "M09", "1.0.0", false⟩,
   ⟨"m10-v1.0.0", "M10", "1.0.0", false⟩,
   ⟨"m11-v1.0.0", "M11", "1.0.0", false⟩]

/-- Witness for claim C3: a request with an unknown base fails, and the
error message is built from the eleven order-preserved non-deprecated ids
(cap 10, overflow count 1); the deprecated descriptor is excluded. -/
theorem findModelId_not_found_error_check :
    findModelId "nonexistent-v1.0.0" overflowModels =
      .error (errorMessage "nonexistent-v1.0.0"
        ((overflowModels.filter (fun x => !x.deprecated)).map
          (fun x => x.id))) :=
  findModelId_not_found_error _ _ (by decide)
    (by
      intro base hb
      have hx : parseBase "nonexistent-v1.0.0" = some "nonexistent" := rfl
      rw [hx] at hb
      injection hb with hb
      subst hb
      rfl)

/-- Counterexample to claim C4: the parse is not end-anchored in the claim's
sense.  Python's `$` also matches just before a final newline, so
`"abc-v1.0.0\n"` — which does not end in `-v<digits>.<digits>.<digits>` —
still parses (base `"abc"`) and reaches the fallback, resolving instead of
failing; and `.` does not match a newline, so `"a\nb-v1.0.0"` — which does
end in the suffix with a non-empty prefix — fails to parse. -/
theorem parse_newline_quirk_cex :
    parseBase "abc-v1.0.0\n" = some "abc" ∧
    parseBase "a\nb-v1.0.0" = none ∧
    findModelId "abc-v1.0.0\n"
      [⟨"abc-v2.0.0", "Abc Segmentation", "2.0.0", false⟩] =
      .ok "abc-v2.0.0" :=
  ⟨rfl, rfl, rfl⟩

/-- Claim C4 (amended): relative to the actual semantics of the Python
pattern — base of non-newline characters, `$` tolerating one final
newline — the parse is anchored and greedy: when any split matches
(`splitOK`), the extracted base keeps everything up to the last matching
suffix (the split index is maximal); when no split matches and there is no
exact match, the fallback is skipped entirely and resolution fails. -/
theorem parseBase_greedy_last_suffix (s : String) (models : List Model) :
    ((∃ i, splitOK s.data i = true) →
      ∃ j, splitOK s.data j = true ∧
        (∀ k, splitOK s.data k = true → k ≤ j) ∧
        parseBase s = some (String.mk (s.data.take j))) ∧
    ((∀ i, splitOK s.data i = false) → (∀ x ∈ models, x.id ≠ s) →
      findModelId s models =
        .error (errorMessage s (availableIds models))) := by
  constructor
  · rintro ⟨i, hi⟩
    exact parseBase_eq_some_max hi
  · intro hno habs
    have hf : models.find? (fun x => x.id == s) = none :=
      List.find?_eq_none.mpr (fun x hx => by simp [habs x hx])
    simp [findModelId, hf, parseBase_eq_none s hno]

/-- Witness for the amended claim C4: the greedy parse of
`"a-v1.0.0-v2.0.0"` keeps the last suffix (split index 8, base
`"a-v1.0.0"`), and the suffix-free `"plainname"` skips fallback and fails
on the empty collection. -/
theorem parseBase_greedy_last_suffix_check :
    (∃ j, splitOK ("a-v1.0.0-v2.0.0" : String).data j = true ∧
      (∀ k, splitOK ("a-v1.0.0-v2.0.0" : String).data k = true → k ≤ j) ∧
      parseBase "a-v1.0.0-v2.0.0" =
        some (String.mk (("a-v1.0.0-v2.0.0" : String).data.take j))) ∧
    findModelId "plainname" [] = .error (errorMessage "plainname" []) := by
  constructor
  · exact (parseBase_greedy_last_suffix "a-v1.0.0-v2.0.0" []).1 ⟨8, rfl⟩
  · refine (parseBase_greedy_last_suffix "plainname" []).2 ?_ ?_
    · intro i
      rcases Nat.lt_or_ge i 9 with hlt | hge
      · interval_cases i <;> rfl
      · have h9 : ("plainname" : String).data.length = 9 := rfl
        exact splitOK_eq_false_of_le (by rw [h9]; exact hge)
    · simp

/-- Counterexample to claim C5: the two resolver copies are not equivalent.
When the first base-matching descriptor is deprecated, the utility resolver
skips it while the tutorial resolver returns it. -/
theorem resolver_copies_differ_cex :
    findModelId "kidney-v1.0.0"
      [⟨"kidney-v2.0.0", "Kidney Segmentation", "2.0.0", true⟩,
       ⟨"kidney-v1.0.1", "Kidney Segmentation", "1.0.1", false⟩] =
      .ok "kidney-v1.0.1" ∧
    tutorialFindModelId "kidney-v1.0.0"
      [⟨"kidney-v2.0.0", "Kidney Segmentation", "2.0.0", true⟩,
       ⟨"kidney-v1.0.1", "Kidney Segmentation", "1.0.1", false⟩] =
      .ok "kidney-v2.0.0" :=
  ⟨rfl, rfl⟩

/-- Claim C5 (amended): on every collection containing no deprecated
descriptor, the two resolver copies are equivalent — they resolve to the
same id and raise together (the error strings differ, so agreement is up to
`Except.toOption`). -/
theorem resolvers_agree_without_deprecated (preferredModelId : String)
    (models : List Model) (h : ∀ m ∈ models, m.deprecated = false) :
    (findModelId preferredModelId models).toOption =
      (tutorialFindModelId preferredModelId models).toOption := by
  cases hf : models.find? (fun m => m.id == preferredModelId) with
  | some m => simp [findModelId, tutorialFindModelId, hf]
  | none =>
    cases hp : parseBase preferredModelId with
    | none =>
      simp [findModelId, tutorialFindModelId, hf, hp, Except.toOption]
    | some base =>
      have hfe : models.filter
          (fun m => strStartsWith m.id (base ++ "-v") && !m.deprecated) =
          models.filter (fun m => strStartsWith m.id (base ++ "-v")) :=
        List.filter_congr (fun m hm => by simp [h m hm])
      cases hfl : models.filter
          (fun m => strStartsWith m.id (base ++ "-v")) with
      | nil =>
        rw [hfl] at hfe
        simp [findModelId, tutorialFindModelId, hf, hp, hfl, hfe,
          Except.toOption]
      | cons a t =>
        rw [hfl] at hfe
        simp [findModelId, tutorialFindModelId, hf, hp, hfl, hfe,
          Except.toOption]

/-- Witness for the amended claim C5: on a deprecation-free collection the
two resolvers agree (here both fall back to `spleen-v1.0.1`). -/
theorem resolvers_agree_without_deprecated_check :
    (findModelId "spleen-v1.0.0"
      [⟨"spleen-v1.0.1", "Spleen Segmentation", "1.0.1", false⟩]).toOption =
    (tutorialFindModelId "spleen-v1.0.0"
      [⟨"spleen-v1.0.1", "Spleen Segmentation", "1.0.1", false⟩]).toOption :=
  resolvers_agree_without_deprecated _ _ (by decide)

/-- Claim C6: for a resolved id present in the collection, the extractor
tokenizes the translated title on whitespace, keeps the tokens that pass the
stop-list/length filter (`keywordOK`) in original order and case, caps them
at two, and joins them with a single space.  (In particular a two-token
title whose tokens both pass yields the two tokens joined by one space.) -/
theorem getModelSearchKeywords_joins_survivors (modelId : String)
    (models : List Model) (translate : String → String) (m : Model)
    (hm : models.find? (fun x => x.id == modelId) = some m)
    (hne : (titleWords (translate m.title)).filter keywordOK ≠ []) :
    getModelSearchKeywords modelId models translate =
      String.intercalate " "
        (((titleWords (translate m.title)).filter keywordOK).take 2) := by
  have hloop := keywordLoop_eq_filter_take (titleWords (translate m.title))
    [] (by simp)
  simp only [List.nil_append, Nat.sub_zero] at hloop
  cases hflt : (titleWords (translate m.title)).filter keywordOK with
  | nil => exact absurd hflt hne
  | cons a t =>
    rw [hflt] at hloop
    simp [getModelSearchKeywords, hm, hloop, hflt]

/-- Witness for claim C6: the title `"Brain Tumor"` has exactly two tokens,
both passing the filter; the result is the two joined by one space. -/
theorem getModelSearchKeywords_joins_survivors_check :
    getModelSearchKeywords "brats-gli-v1.0.0"
      [⟨"brats-gli-v1.0.0", "Brain Tumor", "1.0.0", false⟩] id =
      "Brain Tumor" :=
  (getModelSearchKeywords_joins_survivors "brats-gli-v1.0.0"
    [⟨"brats-gli-v1.0.0", "Brain Tumor", "1.0.0", false⟩] id
    ⟨"brats-gli-v1.0.0", "Brain Tumor", "1.0.0", false⟩ rfl
    (by decide)).trans rfl

/-- Claim C7: when every token of the translated title is filtered out, the
extractor falls back to the very first raw token, and to the empty string
when the title tokenizes to nothing. -/
theorem getModelSearchKeywords_fallback_first_token (modelId : String)
    (models : List Model) (translate : String → String) (m : Model)
    (hm : models.find? (fun x => x.id == modelId) = some m)
    (hall : (titleWords (translate m.title)).filter keywordOK = []) :
    getModelSearchKeywords modelId models translate =
      (titleWords (translate m.title)).headD "" := by
  have hloop := keywordLoop_eq_filter_take (titleWords (translate m.title))
    [] (by simp)
  rw [hall] at hloop
  simp only [List.nil_append, List.take_nil] at hloop
  cases hw : titleWords (translate m.title) with
  | nil =>
    rw [hw] at hloop
    simp [getModelSearchKeywords, hm, hw, hloop]
  | cons w ws =>
    rw [hw] at hloop
    simp [getModelSearchKeywords, hm, hw, hloop]

/-- Witness for claim C7: in `"The v1 CT"` every token is a stop-word or has
length at most two, so the first raw token `"The"` is returned unfiltered. -/
theorem getModelSearchKeywords_fallback_first_token_check :
    getModelSearchKeywords "totalseg-v1.0.0"
      [⟨"totalseg-v1.0.0", "The v1 CT", "1.0.0", false⟩] id = "The" :=
  (getModelSearchKeywords_fallback_first_token "totalseg-v1.0.0"
    [⟨"totalseg-v1.0.0", "The v1 CT", "1.0.0", false⟩] id
    ⟨"totalseg-v1.0.0", "The v1 CT", "1.0.0", false⟩ rfl
    (by decide)).trans rfl

/-- Claim C8: the extractor is total — it always returns a string (its
codomain; no raising path exists in its embedding) — and when no descriptor
carries the given id it returns the empty string. -/
theorem getModelSearchKeywords_missing_id_empty (modelId : String)
    (models : List Model) (translate : String → String)
    (h : ∀ m ∈ models, m.id ≠ modelId) :
    getModelSearchKeywords modelId models translate = "" := by
  have hf : models.find? (fun x => x.id == modelId) = none :=
    List.find?_eq_none.mpr (fun x hx => by simp [h x hx])
  simp [getModelSearchKeywords, hf]

/-- Witness for claim C8: an id absent from the collection yields the empty
string. -/
theorem getModelSearchKeywords_missing_id_empty_check :
    getModelSearchKeywords "missing-v1.0.0"
      [⟨"pancreas-v1.0.0", "Pancreas Segmentation", "1.0.0", false⟩] id =
      "" :=
  getModelSearchKeywords_missing_id_empty _ _ _ (by decide)
